import Mathlib

/-!
Shallow embedding of the context-profiler diagnostic core:
the compaction detector (`src/monitor/session-monitor.ts`), the health
classifier (`src/summary/health-classifier.ts`) and the stateful per-agent
turn evaluator `EventEvaluator` (`src/summary/index.ts`).

Numbers that are JavaScript `number`s carrying percentages or token counts
are embedded as exact rationals (`ℚ`); turn counters are `ℕ`.  Timestamps
and identifiers are `String`s.  The `randomUUID()` call used for event ids
is modelled as an explicit stream `ids : ℕ → String` consumed in emission
order, making the only nondeterminism of the evaluator an explicit input.
-/

namespace CtxProfiler

/-- `TimeSeriesPoint` of `src/schemas/time-series.ts`: timestamp `t`,
absolute token count `abs`, percentage of context limit `pct`. -/
structure TimeSeriesPoint where
  t : String
  abs : ℚ
  pct : ℚ
  deriving Repr, DecidableEq

/-- `Compaction` of `src/schemas/time-series.ts`. -/
structure Compaction where
  t : String
  before : ℚ
  after : ℚ
  deriving Repr, DecidableEq

/-- `COMPACTION_DROP_THRESHOLD` of `src/schemas/constants.ts`. -/
def COMPACTION_DROP_THRESHOLD : ℚ := 0.05

/-- Inner loop of `detectCompactions`, `prev` being the point of the
previous iteration (`points[i-1]`). -/
def detectCompactionsFrom (prev : TimeSeriesPoint) :
    List TimeSeriesPoint → List Compaction
  | [] => []
  | curr :: rest =>
      (if prev.pct - curr.pct > COMPACTION_DROP_THRESHOLD then
        [{ t := curr.t, before := prev.abs, after := curr.abs }]
      else []) ++ detectCompactionsFrom curr rest

/-- `detectCompactions` of `src/monitor/session-monitor.ts`: scans
consecutive pairs and records transitions whose `pct` drop exceeds
`COMPACTION_DROP_THRESHOLD`. -/
def detectCompactions : List TimeSeriesPoint → List Compaction
  | [] => []
  | p :: rest => detectCompactionsFrom p rest

/-- `Severity` enum of the event schema. -/
inductive Severity where
  | info
  | warning
  | critical
  deriving Repr, DecidableEq

/-- `DiagnosticEventType` enum of the event schema. -/
inductive DiagnosticEventType where
  | agent_started
  | agent_completed
  | unmatched_agent
  | warning_threshold_crossed
  | dumbzone_entered
  | dumbzone_lingering
  | compaction_detected
  | compaction_insufficient
  | scope_creep
  | tool_error_spike
  | budget_overrun
  | context_limit_approaching
  deriving Repr, DecidableEq

/-- A value of the free-form `data` payload of a diagnostic event. -/
inductive EventDatum where
  | str (s : String)
  | num (q : ℚ)
  deriving Repr, DecidableEq

/-- `DiagnosticEvent` of the event schema.  The human-readable `message`
field — pure display formatting of the same data the `data` payload
carries — is not modelled; an absent (`undefined`) payload is modelled as
the empty list. -/
structure DiagnosticEvent where
  id : String
  timestamp : String
  agentId : String
  profileId : Option String
  severity : Severity
  type : DiagnosticEventType
  data : List (String × EventDatum)
  deriving Repr, DecidableEq

/-- `HealthGrade` of `src/schemas/transcript.ts`. -/
inductive HealthGrade where
  | healthy
  | degraded
  | unhealthy
  deriving Repr, DecidableEq

/-- `AgentTimeSeries` of `src/schemas/time-series.ts`. -/
structure AgentTimeSeries where
  agentId : String
  model : String
  label : String
  limit : ℚ
  threshold : ℚ
  warningThreshold : ℚ
  points : List TimeSeriesPoint
  compactions : List Compaction
  deriving Repr, DecidableEq

/-- `HealthInput` of `src/summary/health-classifier.ts`; `expectedTurns`
is the `[min, max]` pair. -/
structure HealthInput where
  timeSeries : AgentTimeSeries
  events : List DiagnosticEvent
  warningThreshold : ℚ
  dumbZoneThreshold : ℚ
  maxToolErrorRate : ℚ
  expectedTurns : ℚ × ℚ
  deriving Repr

/-- `classifyHealth` of `src/summary/health-classifier.ts`, translated
clause by clause. -/
def classifyHealth (input : HealthInput) : HealthGrade :=
  let totalTurns := input.timeSeries.points.length
  if totalTurns = 0 then .healthy else
  let turnsInWarning :=
    (input.timeSeries.points.filter (fun p => p.pct ≥ input.warningThreshold)).length
  let turnsInDumbZone :=
    (input.timeSeries.points.filter (fun p => p.pct ≥ input.dumbZoneThreshold)).length
  let warningPct : ℚ := (turnsInWarning : ℚ) / (totalTurns : ℚ)
  let hasLingering := input.events.any (fun e => e.type = .dumbzone_lingering)
  let hasBudgetOverrun := input.events.any (fun e => e.type = .budget_overrun)
  let hasToolSpike := input.events.any (fun e => e.type = .tool_error_spike)
  let enteredDz := input.events.any (fun e => e.type = .dumbzone_entered)
  let hasCompaction := input.events.any (fun e => e.type = .compaction_detected)
  if hasLingering then .unhealthy
  else if hasBudgetOverrun then .unhealthy
  else if (totalTurns : ℚ) > input.expectedTurns.2 * 2 then .unhealthy
  else if hasToolSpike && decide (turnsInDumbZone > 0) then .unhealthy
  else if warningPct > 0.20 then .degraded
  else if enteredDz && hasCompaction then .degraded
  else if hasToolSpike then .degraded
  else if (totalTurns : ℚ) > input.expectedTurns.2 then .degraded
  else .healthy

/-- Reference function written from the words of the spec's §4.3 rule
list: zero points is `healthy` by definition, otherwise the eight rules
are evaluated in strict precedence order with short-circuit at the first
match. -/
def classifyHealthSpec (input : HealthInput) : HealthGrade :=
  let pts := input.timeSeries.points
  let totalTurns := pts.length
  if totalTurns = 0 then .healthy
  else if input.events.any (fun e => e.type = .dumbzone_lingering) then .unhealthy
  else if input.events.any (fun e => e.type = .budget_overrun) then .unhealthy
  else if (totalTurns : ℚ) > 2 * input.expectedTurns.2 then .unhealthy
  else if input.events.any (fun e => e.type = .tool_error_spike) &&
      pts.any (fun p => p.pct ≥ input.dumbZoneThreshold) then .unhealthy
  else if ((pts.filter (fun p => p.pct ≥ input.warningThreshold)).length : ℚ) /
      (totalTurns : ℚ) > 0.20 then .degraded
  else if input.events.any (fun e => e.type = .dumbzone_entered) &&
      input.events.any (fun e => e.type = .compaction_detected) then .degraded
  else if input.events.any (fun e => e.type = .tool_error_spike) then .degraded
  else if (totalTurns : ℚ) > input.expectedTurns.2 then .degraded
  else .healthy

instance : Inhabited TimeSeriesPoint := ⟨⟨"", 0, 0⟩⟩

/-- `EvaluatorConfig` of `src/summary/index.ts` as completed by the
`EventEvaluator` constructor (defaults already filled in). -/
structure EvaluatorConfig where
  agentId : String
  profileId : Option String := none
  warningThreshold : ℚ
  dumbZoneThreshold : ℚ
  compactionTarget : ℚ
  maxTurnsInDumbZone : ℕ
  maxToolErrorRate : ℚ
  maxTurnsTotal : ℕ
  deriving Repr, DecidableEq

/-- `EvaluatorState` of `src/summary/index.ts`. -/
structure EvaluatorState where
  prevPct : ℚ
  turnCount : ℕ
  warningCrossed : Bool
  dumbzoneCrossed : Bool
  consecutiveDumbZoneTurns : ℕ
  totalToolCalls : ℕ
  totalToolErrors : ℕ
  started : Bool
  deriving Repr, DecidableEq

/-- The state the `EventEvaluator` constructor installs. -/
def initialState : EvaluatorState :=
  { prevPct := 0, turnCount := 0, warningCrossed := false, dumbzoneCrossed := false
    consecutiveDumbZoneTurns := 0, totalToolCalls := 0, totalToolErrors := 0, started := false }

/-- JavaScript truthiness test `!config.profileId`: an absent profile id
and the empty string are both falsy. -/
def isFalsyId : Option String → Bool
  | none => true
  | some s => s.isEmpty

/-- Severity, type and payload of one `emit` call; the id and timestamp
are supplied at emission time. -/
def EventSpec := Severity × DiagnosticEventType × List (String × EventDatum)

/-- Guard of the `compaction_detected` block:
`drop > COMPACTION_DROP_THRESHOLD && state.turnCount > 1`, where
`turnCount` has already been incremented for the current turn. -/
def compFires (st : EvaluatorState) (p : TimeSeriesPoint) : Bool :=
  decide (st.prevPct - p.pct > COMPACTION_DROP_THRESHOLD) && decide (st.turnCount + 1 > 1)

/-- `state.warningCrossed` as seen by the warning check of the current
turn: the sticky flag, cleared when the compaction block ran. -/
def warningAfterReset (st : EvaluatorState) (p : TimeSeriesPoint) : Bool :=
  !compFires st p && st.warningCrossed

/-- `state.dumbzoneCrossed` as seen by the dumb-zone check of the current
turn. -/
def dumbzoneAfterReset (st : EvaluatorState) (p : TimeSeriesPoint) : Bool :=
  !compFires st p && st.dumbzoneCrossed

/-- `state.consecutiveDumbZoneTurns` as seen after the compaction block. -/
def consecAfterReset (st : EvaluatorState) (p : TimeSeriesPoint) : ℕ :=
  if compFires st p then 0 else st.consecutiveDumbZoneTurns

/-- Guard of the `warning_threshold_crossed` block. -/
def warnFires (cfg : EvaluatorConfig) (st : EvaluatorState) (p : TimeSeriesPoint) : Bool :=
  decide (p.pct ≥ cfg.warningThreshold) && !warningAfterReset st p

/-- Guard of the `dumbzone_entered` block. -/
def dzFires (cfg : EvaluatorConfig) (st : EvaluatorState) (p : TimeSeriesPoint) : Bool :=
  decide (p.pct ≥ cfg.dumbZoneThreshold) && !dumbzoneAfterReset st p

/-- The consecutive-dumb-zone counter after its per-turn update. -/
def consecUpdated (cfg : EvaluatorConfig) (st : EvaluatorState) (p : TimeSeriesPoint) : ℕ :=
  if p.pct ≥ cfg.dumbZoneThreshold then consecAfterReset st p + 1 else 0

/-- The ordered list of `emit` calls `evaluateTurn` performs for one turn,
mirroring the body of `EventEvaluator.evaluateTurn` block by block. -/
def turnSpecs (cfg : EvaluatorConfig) (st : EvaluatorState) (p : TimeSeriesPoint)
    (toolCalls toolErrors : ℕ) : List EventSpec :=
  let turnCount := st.turnCount + 1
  let totalToolCalls := st.totalToolCalls + toolCalls
  let totalToolErrors := st.totalToolErrors + toolErrors
  (if st.started then [] else
    (Severity.info, DiagnosticEventType.agent_started,
      [("model", EventDatum.str (cfg.profileId.getD "unmatched"))]) ::
    (if isFalsyId cfg.profileId then
      [(Severity.warning, DiagnosticEventType.unmatched_agent, [])] else []))
  ++ (if compFires st p then
      (Severity.info, DiagnosticEventType.compaction_detected,
        [("before", EventDatum.num st.prevPct), ("after", EventDatum.num p.pct)]) ::
      (if p.pct > cfg.compactionTarget then
        [(Severity.warning, DiagnosticEventType.compaction_insufficient,
          [("pct", EventDatum.num p.pct), ("target", EventDatum.num cfg.compactionTarget)])]
      else [])
    else [])
  ++ (if warnFires cfg st p then
      [(Severity.warning, DiagnosticEventType.warning_threshold_crossed,
        [("pct", EventDatum.num p.pct), ("threshold", EventDatum.num cfg.warningThreshold)])]
    else [])
  ++ (if dzFires cfg st p then
      [(Severity.critical, DiagnosticEventType.dumbzone_entered,
        [("pct", EventDatum.num p.pct), ("threshold", EventDatum.num cfg.dumbZoneThreshold)])]
    else [])
  ++ (if consecUpdated cfg st p > cfg.maxTurnsInDumbZone then
      [(Severity.critical, DiagnosticEventType.dumbzone_lingering,
        [("consecutiveTurns", EventDatum.num (consecUpdated cfg st p : ℚ)),
         ("max", EventDatum.num (cfg.maxTurnsInDumbZone : ℚ))])]
    else [])
  ++ (if turnCount > cfg.maxTurnsTotal then
      [(Severity.warning, DiagnosticEventType.scope_creep,
        [("turns", EventDatum.num (turnCount : ℚ)),
         ("expectedMax", EventDatum.num (cfg.maxTurnsTotal : ℚ))])]
    else [])
  ++ (if 0 < totalToolCalls ∧
        (totalToolErrors : ℚ) / (totalToolCalls : ℚ) > cfg.maxToolErrorRate then
      [(Severity.warning, DiagnosticEventType.tool_error_spike,
        [("errorRate", EventDatum.num ((totalToolErrors : ℚ) / (totalToolCalls : ℚ))),
         ("maxRate", EventDatum.num cfg.maxToolErrorRate),
         ("totalCalls", EventDatum.num (totalToolCalls : ℚ)),
         ("totalErrors", EventDatum.num (totalToolErrors : ℚ))])]
    else [])

/-- The state of the evaluator after `evaluateTurn` processed `p`. -/
def stepState (cfg : EvaluatorConfig) (st : EvaluatorState) (p : TimeSeriesPoint)
    (toolCalls toolErrors : ℕ) : EvaluatorState :=
  { prevPct := p.pct
    turnCount := st.turnCount + 1
    warningCrossed := warningAfterReset st p || warnFires cfg st p
    dumbzoneCrossed := dumbzoneAfterReset st p || dzFires cfg st p
    consecutiveDumbZoneTurns := consecUpdated cfg st p
    totalToolCalls := st.totalToolCalls + toolCalls
    totalToolErrors := st.totalToolErrors + toolErrors
    started := true }

/-- `EventEvaluator.emit` with the freshly drawn id passed explicitly. -/
def emit (cfg : EvaluatorConfig) (eid timestamp : String) (severity : Severity)
    (ty : DiagnosticEventType) (data : List (String × EventDatum)) : DiagnosticEvent :=
  { id := eid, timestamp := timestamp, agentId := cfg.agentId, profileId := cfg.profileId
    severity := severity, type := ty, data := data }

/-- Perform the `emit` calls of one turn, drawing ids `ids n, ids (n+1), …`
from the id stream in emission order. -/
def emitAll (cfg : EvaluatorConfig) (ids : ℕ → String) (timestamp : String) :
    ℕ → List EventSpec → List DiagnosticEvent
  | _, [] => []
  | n, s :: rest => emit cfg (ids n) timestamp s.1 s.2.1 s.2.2 :: emitAll cfg ids timestamp (n + 1) rest

/-- `EventEvaluator.evaluateTurn`: returns the emitted events, the mutated
state, and the number of ids consumed so far. -/
def evaluateTurn (cfg : EvaluatorConfig) (ids : ℕ → String) (st : EvaluatorState) (n : ℕ)
    (p : TimeSeriesPoint) (toolCalls toolErrors : ℕ) :
    List DiagnosticEvent × EvaluatorState × ℕ :=
  let specs := turnSpecs cfg st p toolCalls toolErrors
  (emitAll cfg ids p.t n specs, stepState cfg st p toolCalls toolErrors, n + specs.length)

/-- `EventEvaluator.complete`: emits the final `agent_completed` event. -/
def complete (cfg : EvaluatorConfig) (ids : ℕ → String) (st : EvaluatorState) (n : ℕ)
    (timestamp : String) : DiagnosticEvent × ℕ :=
  (emit cfg (ids n) timestamp Severity.info DiagnosticEventType.agent_completed
    [("totalTurns", EventDatum.num (st.turnCount : ℚ)),
     ("finalPct", EventDatum.num st.prevPct)], n + 1)

/-- One `evaluateTurn` call's inputs. -/
structure TurnInput where
  point : TimeSeriesPoint
  toolCalls : ℕ
  toolErrors : ℕ
  deriving Repr, DecidableEq

/-- Feed a sequence of turns to one evaluator; returns the per-call event
lists together with the final state and id-stream position. -/
def runFull (cfg : EvaluatorConfig) (ids : ℕ → String) :
    EvaluatorState → ℕ → List TurnInput → List (List DiagnosticEvent) × EvaluatorState × ℕ
  | st, n, [] => ([], st, n)
  | st, n, inp :: rest =>
    let r := evaluateTurn cfg ids st n inp.point inp.toolCalls inp.toolErrors
    let rs := runFull cfg ids r.2.1 r.2.2 rest
    (r.1 :: rs.1, rs.2)

/-- The per-call event lists of a run. -/
def runEvaluator (cfg : EvaluatorConfig) (ids : ℕ → String) (st : EvaluatorState) (n : ℕ)
    (inputs : List TurnInput) : List (List DiagnosticEvent) :=
  (runFull cfg ids st n inputs).1

/-- A freshly constructed evaluator fed points only (tool counts default
to 0, as in `evaluateTurn(point)`). -/
def runPoints (cfg : EvaluatorConfig) (ids : ℕ → String)
    (points : List TimeSeriesPoint) : List (List DiagnosticEvent) :=
  runEvaluator cfg ids initialState 0 (points.map (fun p => ⟨p, 0, 0⟩))

/-- Types of the events emitted by the `i`-th call of a run (`[]` past the
end). -/
def eventTypesAt (outs : List (List DiagnosticEvent)) (i : ℕ) : List DiagnosticEventType :=
  (outs.getD i []).map DiagnosticEvent.type

/-- Blank out the randomly drawn id of an event. -/
def eraseId (e : DiagnosticEvent) : DiagnosticEvent := { e with id := "" }

/-- Types emitted for one point-only turn. -/
def typesOfTurn (cfg : EvaluatorConfig) (st : EvaluatorState) (p : TimeSeriesPoint) :
    List DiagnosticEventType :=
  (turnSpecs cfg st p 0 0).map (fun s => s.2.1)

/-- Point-only state step. -/
def stepPoint (cfg : EvaluatorConfig) (st : EvaluatorState) (p : TimeSeriesPoint) :
    EvaluatorState :=
  stepState cfg st p 0 0

/-- Per-turn emitted event types of a point-only run started from `st`. -/
def traceTypes (cfg : EvaluatorConfig) :
    EvaluatorState → List TimeSeriesPoint → List (List DiagnosticEventType)
  | _, [] => []
  | st, p :: rest => typesOfTurn cfg st p :: traceTypes cfg (stepPoint cfg st p) rest

/-- Evaluator state after the first `i` points of a fresh point-only run. -/
def evalS (cfg : EvaluatorConfig) (points : List TimeSeriesPoint) (i : ℕ) : EvaluatorState :=
  (points.take i).foldl (stepPoint cfg) initialState

/-- Total indexing into the point list. -/
def ptAt (points : List TimeSeriesPoint) (i : ℕ) : TimeSeriesPoint :=
  points.getD i default

/-- Does the `i`-th call of a fresh point-only run emit
`warning_threshold_crossed`? -/
def firedWarnB (cfg : EvaluatorConfig) (points : List TimeSeriesPoint) (i : ℕ) : Bool :=
  warnFires cfg (evalS cfg points i) (ptAt points i)

/-- Does the `i`-th call of a fresh point-only run emit
`compaction_detected`? -/
def compB (cfg : EvaluatorConfig) (points : List TimeSeriesPoint) (i : ℕ) : Bool :=
  compFires (evalS cfg points i) (ptAt points i)

/-- The batch compaction list read off an incremental run's per-call
emissions (walking points and calls in lockstep): the transition from
point `i-1` to point `i` is recorded exactly when the `i`-th call emitted
a `compaction_detected` event, with the same record contents the batch
detector would produce. -/
def runCompactions : List TimeSeriesPoint → List (List DiagnosticEvent) → List Compaction
  | p :: q :: ps, _ :: evts :: outs =>
      (if evts.any (fun e => e.type = DiagnosticEventType.compaction_detected) then
        [{ t := q.t, before := p.abs, after := q.abs }]
      else []) ++ runCompactions (q :: ps) (evts :: outs)
  | _, _ => []

/-- Reference function from the spec's words (§4.1): the subsequence of
consecutive transitions whose `pct` drop strictly exceeds the constant
threshold, each record carrying the two absolute token counts and the
later point's timestamp. -/
def detectCompactionsSpec (points : List TimeSeriesPoint) : List Compaction :=
  ((points.zip points.tail).filter
    (fun pr => pr.1.pct - pr.2.pct > COMPACTION_DROP_THRESHOLD)).map
    (fun pr => { t := pr.2.t, before := pr.1.abs, after := pr.2.abs })

/-- The state fold of a run, ignoring emission entirely. -/
def statesOnly (cfg : EvaluatorConfig) : EvaluatorState → List TurnInput → EvaluatorState
  | st, [] => st
  | st, inp :: rest => statesOnly cfg (stepState cfg st inp.point inp.toolCalls inp.toolErrors) rest

/-- The per-call event lists of a run with every id blanked out — the
id-stream-independent part of the run. -/
def erasedRun (cfg : EvaluatorConfig) : EvaluatorState → List TurnInput → List (List DiagnosticEvent)
  | _, [] => []
  | st, inp :: rest =>
    (turnSpecs cfg st inp.point inp.toolCalls inp.toolErrors).map
      (fun s => emit cfg "" inp.point.t s.1 s.2.1 s.2.2) ::
    erasedRun cfg (stepState cfg st inp.point inp.toolCalls inp.toolErrors) rest

/-! Concrete inputs used by witnesses and counterexamples. -/

/-- A constant id stream. -/
def idsD : ℕ → String := fun _ => ""

/-- An id stream drawing `"a"` every time. -/
def idsA : ℕ → String := fun _ => "a"

/-- An id stream drawing `"b"` every time. -/
def idsB : ℕ → String := fun _ => "b"

/-- A matched-profile configuration with the spec's default thresholds. -/
def cfgD : EvaluatorConfig :=
  { agentId := "main", profileId := some "default", warningThreshold := 0.70
    dumbZoneThreshold := 0.85, compactionTarget := 0.50, maxTurnsInDumbZone := 3
    maxToolErrorRate := 0.15, maxTurnsTotal := 40 }

/-- The same configuration with an empty-string profile id. -/
def cfgE : EvaluatorConfig := { cfgD with profileId := some "" }

/-- Scenario D of the spec: points `[0.10, 0.80, 0.55]`. -/
def ptsD : List TimeSeriesPoint :=
  [⟨"t1", 20000, 0.10⟩, ⟨"t2", 160000, 0.80⟩, ⟨"t3", 110000, 0.55⟩]

/-- Two points whose `pct` is consistently `abs / 200`. -/
def ptsTok : List TimeSeriesPoint := [⟨"t1", 100, 0.5⟩, ⟨"t2", 40, 0.2⟩]

/-- Two points whose `pct` drops while `abs` rises. -/
def ptsMis : List TimeSeriesPoint := [⟨"t1", 100, 0.5⟩, ⟨"t2", 200, 0.1⟩]

/-- A `dumbzone_lingering` event. -/
def lingerEvent : DiagnosticEvent :=
  { id := "e1", timestamp := "t0", agentId := "main", profileId := none
    severity := Severity.critical, type := DiagnosticEventType.dumbzone_lingering, data := [] }

/-- A time series with no points. -/
def emptySeries : AgentTimeSeries :=
  { agentId := "main", model := "m", label := "l", limit := 200000, threshold := 0.85
    warningThreshold := 0.70, points := [], compactions := [] }

/-- A classifier input with zero points but a `dumbzone_lingering` event. -/
def zeroPtsInput : HealthInput :=
  { timeSeries := emptySeries, events := [lingerEvent], warningThreshold := 0.70
    dumbZoneThreshold := 0.85, maxToolErrorRate := 0.15, expectedTurns := (10, 40) }

/-- The same classifier input with one (low-usage) point. -/
def onePtInput : HealthInput :=
  { zeroPtsInput with timeSeries := { emptySeries with points := [⟨"t1", 20000, 0.10⟩] } }

/-- A single-turn input sequence. -/
def inpD : List TurnInput := [⟨⟨"t1", 100, 0.5⟩, 0, 0⟩]

/-! ## Theorems -/

theorem any_eq_decide_filter_pos {α : Type} (l : List α) (p : α → Bool) :
    l.any p = decide ((l.filter p).length > 0) := by
  induction l with
  | nil => rfl
  | cons a l ih => cases h : p a <;> simp [List.any_cons, List.filter_cons, h, ih]

/-- Claim C10: `classifyHealth` is independent of the `maxToolErrorRate`
field of its input: changing only that field never changes the returned
grade. -/
theorem classifyHealth_ignores_maxToolErrorRate (input : HealthInput) (r : ℚ) :
    classifyHealth { input with maxToolErrorRate := r } = classifyHealth input := rfl

/-- Claim C2: `classifyHealth` equals the reference function evaluated in
strict precedence order (zero points being `healthy` by definition, then
the eight rules, short-circuiting at the first match). -/
theorem classifyHealth_eq_spec (input : HealthInput) :
    classifyHealth input = classifyHealthSpec input := by
  unfold classifyHealth classifyHealthSpec
  rw [mul_comm (2 : ℚ) input.expectedTurns.2]
  simp only [any_eq_decide_filter_pos]

/-- Claim C3 counterexample: with zero points and a `dumbzone_lingering`
event present, `classifyHealth` returns `healthy`, not `unhealthy` — the
zero-points check short-circuits ahead of the lingering rule. -/
theorem classifyHealth_lingering_zero_points_healthy :
    zeroPtsInput.events.any (fun e => e.type = DiagnosticEventType.dumbzone_lingering) = true ∧
    classifyHealth zeroPtsInput ≠ HealthGrade.unhealthy := by decide

/-- Claim C3 (amended): if the event list contains a `dumbzone_lingering`
event and the time series has at least one point, `classifyHealth` returns
`unhealthy` irrespective of all other signals. -/
theorem classifyHealth_lingering_unhealthy (input : HealthInput)
    (h1 : ∃ e ∈ input.events, e.type = DiagnosticEventType.dumbzone_lingering)
    (h2 : input.timeSeries.points ≠ []) :
    classifyHealth input = HealthGrade.unhealthy := by
  obtain ⟨e, he, hty⟩ := h1
  have hlen : input.timeSeries.points.length ≠ 0 :=
    fun h => h2 (List.length_eq_zero.mp h)
  have hling : input.events.any
      (fun e => e.type = DiagnosticEventType.dumbzone_lingering) = true :=
    List.any_eq_true.mpr ⟨e, he, by simp [hty]⟩
  simp [classifyHealth, hlen, hling]

theorem classifyHealth_lingering_unhealthy_witness :
    classifyHealth onePtInput = HealthGrade.unhealthy :=
  classifyHealth_lingering_unhealthy onePtInput ⟨lingerEvent, by decide, by decide⟩ (by decide)

theorem detectCompactionsFrom_eq_spec (rest : List TimeSeriesPoint) :
    ∀ prev, detectCompactionsFrom prev rest =
      (((prev :: rest).zip rest).filter
        (fun pr => pr.1.pct - pr.2.pct > COMPACTION_DROP_THRESHOLD)).map
        (fun pr => { t := pr.2.t, before := pr.1.abs, after := pr.2.abs }) := by
  induction rest with
  | nil => intro prev; rfl
  | cons curr rest ih =>
    intro prev
    by_cases h : prev.pct - curr.pct > COMPACTION_DROP_THRESHOLD <;>
      simp [detectCompactionsFrom, List.zip_cons_cons, List.filter_cons, h, ih curr]

/-- Claim C4: `detectCompactions` returns exactly the subsequence of
consecutive transitions whose `pct` drop strictly exceeds 0.05, each
record carrying the earlier point's and later point's absolute token
counts and the later point's timestamp (so a drop of exactly 0.05 never
produces a record). -/
theorem detectCompactions_eq_spec (points : List TimeSeriesPoint) :
    detectCompactions points = detectCompactionsSpec points := by
  cases points with
  | nil => rfl
  | cons p rest => exact detectCompactionsFrom_eq_spec rest p

theorem detectCompactionsFrom_before_gt (L : ℚ) (hL : 0 < L) :
    ∀ (rest : List TimeSeriesPoint) (prev : TimeSeriesPoint),
      prev.pct = prev.abs / L → (∀ p ∈ rest, p.pct = p.abs / L) →
      ∀ c ∈ detectCompactionsFrom prev rest, c.after < c.before := by
  intro rest
  induction rest with
  | nil => intro prev _ _ c hc; simp [detectCompactionsFrom] at hc
  | cons curr rest ih =>
    intro prev hprev hrest c hc
    have hcurr : curr.pct = curr.abs / L := hrest curr (by simp)
    have hrest' : ∀ p ∈ rest, p.pct = p.abs / L := fun p hp => hrest p (by simp [hp])
    by_cases hdrop : prev.pct - curr.pct > COMPACTION_DROP_THRESHOLD
    · simp [detectCompactionsFrom, hdrop] at hc
      rcases hc with hc | hc
      · subst hc
        have hlt : curr.pct < prev.pct := by
          have : (0 : ℚ) < COMPACTION_DROP_THRESHOLD := by norm_num [COMPACTION_DROP_THRESHOLD]
          linarith
        rw [hprev, hcurr] at hlt
        exact (div_lt_div_iff_of_pos_right hL).mp hlt
      · exact ih curr hcurr hrest' c hc
    · simp [detectCompactionsFrom, hdrop] at hc
      exact ih curr hcurr hrest' c hc

/-- Claim C9 counterexample: on a point sequence whose `pct` drops while
`abs` rises, `detectCompactions` produces a record with `before < after` —
the invariant does not hold for every input sequence, because the detector
compares `pct` but records `abs`. -/
theorem detectCompactions_before_after_cx :
    ¬ ∀ c ∈ detectCompactions ptsMis, c.before > c.after := by
  with_unfolding_all decide

/-- Claim C9 (amended): on any point sequence that is consistent with a
single positive context limit `L` (each point's `pct` equals its `abs`
divided by `L`, as ingestion computes it), every record produced by
`detectCompactions` has `before > after`. -/
theorem detectCompactions_before_gt_after (points : List TimeSeriesPoint) (L : ℚ)
    (hL : 0 < L) (hpts : ∀ p ∈ points, p.pct = p.abs / L) :
    ∀ c ∈ detectCompactions points, c.before > c.after := by
  cases points with
  | nil => intro c hc; simp [detectCompactions] at hc
  | cons p rest =>
    intro c hc
    exact detectCompactionsFrom_before_gt L hL rest p (hpts p (by simp))
      (fun q hq => hpts q (by simp [hq])) c hc

theorem emitAll_map_eraseId (cfg : EvaluatorConfig) (ids : ℕ → String) (t : String)
    (specs : List EventSpec) : ∀ n, (emitAll cfg ids t n specs).map eraseId =
      specs.map (fun s => emit cfg "" t s.1 s.2.1 s.2.2) := by
  induction specs with
  | nil => intro n; rfl
  | cons s rest ih =>
    intro n
    simp only [emitAll, List.map_cons, ih (n + 1)]
    rfl

theorem runFull_fst_erased (cfg : EvaluatorConfig) (ids : ℕ → String) :
    ∀ (inputs : List TurnInput) (st : EvaluatorState) (n : ℕ),
      (runFull cfg ids st n inputs).1.map (List.map eraseId) = erasedRun cfg st inputs := by
  intro inputs
  induction inputs with
  | nil => intro st n; rfl
  | cons inp rest ih =>
    intro st n
    simp only [runFull, evaluateTurn, erasedRun, List.map_cons, emitAll_map_eraseId, ih]

theorem runFull_state (cfg : EvaluatorConfig) (ids : ℕ → String) :
    ∀ (inputs : List TurnInput) (st : EvaluatorState) (n : ℕ),
      (runFull cfg ids st n inputs).2.1 = statesOnly cfg st inputs := by
  intro inputs
  induction inputs with
  | nil => intro st n; rfl
  | cons inp rest ih => intro st n; simp only [runFull, evaluateTurn, statesOnly, ih]

/-- Claim C8 counterexample: two runs of a freshly constructed evaluator
over the same configuration and the same single-turn input differ — the
event `id` field is drawn from `randomUUID()`, modelled here as the two id
streams, so the emitted event lists are not identical in all fields. -/
theorem run_not_identical_across_id_streams :
    runEvaluator cfgD idsA initialState 0 inpD ≠ runEvaluator cfgD idsB initialState 0 inpD := by
  with_unfolding_all decide

/-- Claim C8 (amended): the evaluator is a pure, deterministic fold over
turn observations up to the randomly drawn event ids — two runs of a
freshly constructed evaluator over the same configuration and input
sequence, differing only in the id stream, emit per-call event lists that
are identical in every field except `id`, and `complete` returns identical
events except for `id`. -/
theorem run_deterministic_up_to_ids (cfg : EvaluatorConfig) (ids1 ids2 : ℕ → String)
    (inputs : List TurnInput) (t : String) :
    (runEvaluator cfg ids1 initialState 0 inputs).map (List.map eraseId) =
      (runEvaluator cfg ids2 initialState 0 inputs).map (List.map eraseId) ∧
    eraseId (complete cfg ids1 (runFull cfg ids1 initialState 0 inputs).2.1
        (runFull cfg ids1 initialState 0 inputs).2.2 t).1 =
      eraseId (complete cfg ids2 (runFull cfg ids2 initialState 0 inputs).2.1
        (runFull cfg ids2 initialState 0 inputs).2.2 t).1 := by
  constructor
  · simp only [runEvaluator, runFull_fst_erased]
  · simp only [runFull_state]
    rfl

theorem detectCompactions_before_gt_after_witness :
    ({ t := "t2", before := 100, after := 40 } : Compaction).before >
      ({ t := "t2", before := 100, after := 40 } : Compaction).after :=
  detectCompactions_before_gt_after ptsTok 200 (by norm_num)
    (by with_unfolding_all decide) _ (by with_unfolding_all decide)

theorem bool_or_and_not (a b : Bool) : (a || (b && !a)) = (a || b) := by
  cases a <;> cases b <;> rfl

theorem emitAll_types (cfg : EvaluatorConfig) (ids : ℕ → String) (t : String)
    (specs : List EventSpec) : ∀ n,
    (emitAll cfg ids t n specs).map DiagnosticEvent.type = specs.map (fun s => s.2.1) := by
  induction specs with
  | nil => intro n; rfl
  | cons s rest ih =>
    intro n
    simp only [emitAll, List.map_cons, ih (n + 1)]
    rfl

theorem runPoints_types (cfg : EvaluatorConfig) (ids : ℕ → String) :
    ∀ (points : List TimeSeriesPoint) (st : EvaluatorState) (n : ℕ),
    (runEvaluator cfg ids st n (points.map (fun p => ⟨p, 0, 0⟩))).map
        (List.map DiagnosticEvent.type) = traceTypes cfg st points := by
  intro points
  induction points with
  | nil => intro st n; rfl
  | cons p rest ih =>
    intro st n
    have ih' := ih (stepState cfg st p 0 0) (n + (turnSpecs cfg st p 0 0).length)
    simp only [runEvaluator] at ih'
    simp only [runEvaluator, runFull, evaluateTurn, List.map_cons, traceTypes, typesOfTurn,
      stepPoint, emitAll_types, ih']

theorem getD_map_type (l : List (List DiagnosticEvent)) : ∀ i,
    (l.getD i []).map DiagnosticEvent.type =
      (l.map (List.map DiagnosticEvent.type)).getD i [] := by
  induction l with
  | nil => intro i; rfl
  | cons x l ih =>
    intro i
    cases i with
    | zero => rfl
    | succ j => simpa using ih j

theorem eventTypesAt_runPoints (cfg : EvaluatorConfig) (ids : ℕ → String)
    (points : List TimeSeriesPoint) (i : ℕ) :
    eventTypesAt (runPoints cfg ids points) i =
      (traceTypes cfg initialState points).getD i [] := by
  rw [eventTypesAt, getD_map_type, runPoints, runPoints_types]

theorem traceTypes_getD (cfg : EvaluatorConfig) :
    ∀ (points : List TimeSeriesPoint) (st : EvaluatorState) (i : ℕ), i < points.length →
    (traceTypes cfg st points).getD i [] =
      typesOfTurn cfg ((points.take i).foldl (stepPoint cfg) st) (points.getD i default) := by
  intro points
  induction points with
  | nil => intro st i h; simp at h
  | cons p rest ih =>
    intro st i h
    cases i with
    | zero => rfl
    | succ j =>
      have hj : j < rest.length := by simpa using h
      simpa [traceTypes] using ih (stepPoint cfg st p) j hj

theorem eventTypesAt_eq_typesOfTurn (cfg : EvaluatorConfig) (ids : ℕ → String)
    (points : List TimeSeriesPoint) (i : ℕ) (h : i < points.length) :
    eventTypesAt (runPoints cfg ids points) i =
      typesOfTurn cfg (evalS cfg points i) (ptAt points i) := by
  rw [eventTypesAt_runPoints, traceTypes_getD cfg points initialState i h]
  rfl

theorem foldl_turnCount (cfg : EvaluatorConfig) :
    ∀ (l : List TimeSeriesPoint) (st : EvaluatorState),
    (l.foldl (stepPoint cfg) st).turnCount = st.turnCount + l.length := by
  intro l
  induction l with
  | nil => intro st; rfl
  | cons p rest ih =>
    intro st
    simp only [List.foldl_cons, ih, stepPoint, stepState, List.length_cons]
    omega

theorem evalS_turnCount (cfg : EvaluatorConfig) (points : List TimeSeriesPoint) (i : ℕ)
    (h : i ≤ points.length) : (evalS cfg points i).turnCount = i := by
  simp only [evalS, foldl_turnCount, initialState, List.length_take]
  omega

theorem foldl_started (cfg : EvaluatorConfig) :
    ∀ (l : List TimeSeriesPoint) (st : EvaluatorState),
    (l.foldl (stepPoint cfg) st).started = (st.started || !l.isEmpty) := by
  intro l
  induction l with
  | nil => intro st; simp
  | cons p rest ih =>
    intro st
    simp [List.foldl_cons, ih, stepPoint, stepState]

theorem evalS_started_eq_false_iff (cfg : EvaluatorConfig) (points : List TimeSeriesPoint)
    (i : ℕ) (h : i < points.length) :
    ((evalS cfg points i).started = false ↔ i = 0) := by
  rw [evalS, foldl_started]
  simp only [initialState, Bool.false_or, Bool.not_eq_false']
  rw [List.isEmpty_iff, ← List.length_eq_zero, List.length_take]
  omega

theorem evalS_succ (cfg : EvaluatorConfig) (points : List TimeSeriesPoint) (i : ℕ)
    (h : i < points.length) :
    evalS cfg points (i + 1) = stepPoint cfg (evalS cfg points i) (ptAt points i) := by
  unfold evalS
  rw [List.take_succ, List.getElem?_eq_getElem h]
  simp only [Option.toList_some, List.foldl_append, List.foldl_cons, List.foldl_nil]
  congr 1
  rw [ptAt, List.getD_eq_getElem points default h]

theorem evalS_prevPct (cfg : EvaluatorConfig) (points : List TimeSeriesPoint) (i : ℕ)
    (h : i < points.length) :
    (evalS cfg points (i + 1)).prevPct = (ptAt points i).pct := by
  rw [evalS_succ cfg points i h]
  rfl

theorem types_comp_iff (cfg : EvaluatorConfig) (st : EvaluatorState) (p : TimeSeriesPoint) :
    DiagnosticEventType.compaction_detected ∈ typesOfTurn cfg st p ↔ compFires st p = true := by
  simp [typesOfTurn, turnSpecs, apply_ite (List.map (fun s : EventSpec => s.2.1)),
    List.mem_ite_nil_right, List.mem_ite_nil_left, List.mem_cons]

theorem types_insuff_iff (cfg : EvaluatorConfig) (st : EvaluatorState) (p : TimeSeriesPoint) :
    DiagnosticEventType.compaction_insufficient ∈ typesOfTurn cfg st p ↔
      (compFires st p = true ∧ cfg.compactionTarget < p.pct) := by
  simp [typesOfTurn, turnSpecs, apply_ite (List.map (fun s : EventSpec => s.2.1)),
    List.mem_ite_nil_right, List.mem_ite_nil_left, List.mem_cons]

theorem types_warn_iff (cfg : EvaluatorConfig) (st : EvaluatorState) (p : TimeSeriesPoint) :
    DiagnosticEventType.warning_threshold_crossed ∈ typesOfTurn cfg st p ↔
      warnFires cfg st p = true := by
  simp [typesOfTurn, turnSpecs, apply_ite (List.map (fun s : EventSpec => s.2.1)),
    List.mem_ite_nil_right, List.mem_ite_nil_left, List.mem_cons]

theorem types_started_iff (cfg : EvaluatorConfig) (st : EvaluatorState) (p : TimeSeriesPoint) :
    DiagnosticEventType.agent_started ∈ typesOfTurn cfg st p ↔ st.started = false := by
  simp [typesOfTurn, turnSpecs, apply_ite (List.map (fun s : EventSpec => s.2.1)),
    List.mem_ite_nil_right, List.mem_ite_nil_left, List.mem_cons]

theorem types_unmatched_iff (cfg : EvaluatorConfig) (st : EvaluatorState) (p : TimeSeriesPoint) :
    DiagnosticEventType.unmatched_agent ∈ typesOfTurn cfg st p ↔
      (st.started = false ∧ isFalsyId cfg.profileId = true) := by
  simp [typesOfTurn, turnSpecs, apply_ite (List.map (fun s : EventSpec => s.2.1)),
    List.mem_ite_nil_right, List.mem_ite_nil_left, List.mem_cons]

theorem any_type_iff_mem_map (l : List DiagnosticEvent) (τ : DiagnosticEventType) :
    (l.any (fun e => e.type = τ) = true) ↔ τ ∈ l.map DiagnosticEvent.type := by
  rw [List.any_eq_true]
  constructor
  · rintro ⟨e, he, hty⟩
    exact List.mem_map.mpr ⟨e, he, by simpa using hty⟩
  · intro hmem
    obtain ⟨e, he, hty⟩ := List.mem_map.mp hmem
    exact ⟨e, he, by simp [hty]⟩

theorem memWarn_iff (cfg : EvaluatorConfig) (ids : ℕ → String) (points : List TimeSeriesPoint)
    (m : ℕ) (hm : m < points.length) :
    DiagnosticEventType.warning_threshold_crossed ∈ eventTypesAt (runPoints cfg ids points) m ↔
      firedWarnB cfg points m = true := by
  rw [eventTypesAt_eq_typesOfTurn cfg ids points m hm, types_warn_iff]
  rfl

theorem memComp_iff (cfg : EvaluatorConfig) (ids : ℕ → String) (points : List TimeSeriesPoint)
    (m : ℕ) (hm : m < points.length) :
    DiagnosticEventType.compaction_detected ∈ eventTypesAt (runPoints cfg ids points) m ↔
      compB cfg points m = true := by
  rw [eventTypesAt_eq_typesOfTurn cfg ids points m hm, types_comp_iff]
  rfl

theorem compB_zero (cfg : EvaluatorConfig) (points : List TimeSeriesPoint) :
    compB cfg points 0 = false := by
  simp [compB, compFires, evalS, initialState]

theorem compB_succ (cfg : EvaluatorConfig) (points : List TimeSeriesPoint) (i : ℕ)
    (h : i + 1 < points.length) :
    compB cfg points (i + 1) =
      decide ((ptAt points i).pct - (ptAt points (i + 1)).pct > COMPACTION_DROP_THRESHOLD) := by
  have h' : i < points.length := Nat.lt_of_succ_lt h
  have hcnt : (evalS cfg points (i + 1)).turnCount = i + 1 :=
    evalS_turnCount cfg points (i + 1) (le_of_lt h)
  rw [compB, compFires, evalS_prevPct cfg points i h', hcnt]
  have : i + 1 + 1 > 1 := by omega
  simp [this]

/-- Claim C6: in any turn of any run, `compaction_insufficient` is emitted
iff `compaction_detected` is emitted in the same turn and the current
`pct` is strictly above `compactionTarget`. -/
theorem compaction_insufficient_iff_detected_above_target (cfg : EvaluatorConfig)
    (ids : ℕ → String) (points : List TimeSeriesPoint) (i : ℕ) (h : i < points.length) :
    DiagnosticEventType.compaction_insufficient ∈ eventTypesAt (runPoints cfg ids points) i ↔
      (DiagnosticEventType.compaction_detected ∈ eventTypesAt (runPoints cfg ids points) i ∧
        (ptAt points i).pct > cfg.compactionTarget) := by
  rw [eventTypesAt_eq_typesOfTurn cfg ids points i h, types_insuff_iff, types_comp_iff]

theorem compaction_insufficient_iff_witness :
    DiagnosticEventType.compaction_insufficient ∈ eventTypesAt (runPoints cfgD idsD ptsD) 2 :=
  (compaction_insufficient_iff_detected_above_target cfgD idsD ptsD 2 (by decide)).mpr
    ⟨by with_unfolding_all decide, by with_unfolding_all decide⟩

/-- Claim C7 counterexample: a configuration whose `profileId` is present
but equal to the empty string still gets `unmatched_agent` on the first
turn — the code's `!config.profileId` check treats the empty string as "no
profile". -/
theorem unmatched_agent_despite_profile_id :
    cfgE.profileId ≠ none ∧
    DiagnosticEventType.unmatched_agent ∈ eventTypesAt (runPoints cfgE idsD ptsD) 0 := by
  with_unfolding_all decide

/-- Claim C7 (amended): `agent_started` is emitted exactly on the first
call; `unmatched_agent` is emitted exactly on the first call and exactly
when the configured `profileId` is absent or the empty string (the
JavaScript-falsy cases of `!config.profileId`); no later call emits
either. -/
theorem agent_started_first_turn_only (cfg : EvaluatorConfig) (ids : ℕ → String)
    (points : List TimeSeriesPoint) (i : ℕ) (h : i < points.length) :
    (DiagnosticEventType.agent_started ∈ eventTypesAt (runPoints cfg ids points) i ↔ i = 0) ∧
    (DiagnosticEventType.unmatched_agent ∈ eventTypesAt (runPoints cfg ids points) i ↔
      (i = 0 ∧ isFalsyId cfg.profileId = true)) := by
  rw [eventTypesAt_eq_typesOfTurn cfg ids points i h, types_started_iff, types_unmatched_iff,
    evalS_started_eq_false_iff cfg points i h]
  exact ⟨Iff.rfl, Iff.rfl⟩

theorem agent_started_first_turn_only_witness :
    DiagnosticEventType.agent_started ∈ eventTypesAt (runPoints cfgD idsD ptsD) 0 :=
  ((agent_started_first_turn_only cfgD idsD ptsD 0 (by decide)).1).mpr rfl

theorem detectFrom_eq_runCompactions (cfg : EvaluatorConfig) (ids : ℕ → String) :
    ∀ (rest : List TimeSeriesPoint) (prev : TimeSeriesPoint) (st : EvaluatorState) (n : ℕ)
      (junk : List DiagnosticEvent),
      st.prevPct = prev.pct → 0 < st.turnCount →
      detectCompactionsFrom prev rest =
        runCompactions (prev :: rest)
          (junk :: (runFull cfg ids st n (rest.map (fun p => ⟨p, 0, 0⟩))).1) := by
  intro rest
  induction rest with
  | nil => intro prev st n junk h1 h2; rfl
  | cons curr rest ih =>
    intro prev st n junk h1 h2
    have hgt : st.turnCount + 1 > 1 := by omega
    have hcond : ((emitAll cfg ids curr.t n (turnSpecs cfg st curr 0 0)).any
        (fun e => e.type = DiagnosticEventType.compaction_detected) = true) ↔
        (prev.pct - curr.pct > COMPACTION_DROP_THRESHOLD) := by
      rw [any_type_iff_mem_map, emitAll_types]
      rw [show (turnSpecs cfg st curr 0 0).map (fun s => s.2.1) = typesOfTurn cfg st curr from rfl]
      rw [types_comp_iff, compFires, h1]
      simp [hgt]
    simp only [List.map_cons, runFull, evaluateTurn, runCompactions]
    rw [if_congr hcond rfl rfl]
    simp only [detectCompactionsFrom]
    by_cases hd : prev.pct - curr.pct > COMPACTION_DROP_THRESHOLD
    · rw [if_pos hd]
      simp only [List.singleton_append]
      exact congrArg (List.cons _)
        (ih curr (stepState cfg st curr 0 0) (n + (turnSpecs cfg st curr 0 0).length)
          (emitAll cfg ids curr.t n (turnSpecs cfg st curr 0 0)) rfl (by simp [stepState]))
    · rw [if_neg hd]
      simp only [List.nil_append]
      exact ih curr (stepState cfg st curr 0 0) (n + (turnSpecs cfg st curr 0 0).length)
        (emitAll cfg ids curr.t n (turnSpecs cfg st curr 0 0)) rfl (by simp [stepState])

/-- Claim C5: incremental/batch agreement — the first call of a fresh
point-only run never emits `compaction_detected`; the `(i+1)`-th call
emits it iff the `pct` drop from point `i` to point `i+1` strictly exceeds
the constant threshold; and batch `detectCompactions` over the same array
yields exactly the records of the transitions at which the incremental
evaluator emitted `compaction_detected`, index by index. -/
theorem incremental_batch_compaction_agreement (cfg : EvaluatorConfig) (ids : ℕ → String)
    (points : List TimeSeriesPoint) :
    DiagnosticEventType.compaction_detected ∉ eventTypesAt (runPoints cfg ids points) 0 ∧
    (∀ i, i + 1 < points.length →
      (DiagnosticEventType.compaction_detected ∈ eventTypesAt (runPoints cfg ids points) (i + 1) ↔
        (ptAt points i).pct - (ptAt points (i + 1)).pct > COMPACTION_DROP_THRESHOLD)) ∧
    detectCompactions points = runCompactions points (runPoints cfg ids points) := by
  refine ⟨?_, ?_, ?_⟩
  · cases points with
    | nil => simp [runPoints, runEvaluator, runFull, eventTypesAt]
    | cons p rest =>
      intro hmem
      rw [memComp_iff cfg ids (p :: rest) 0 (by simp), compB_zero] at hmem
      cases hmem
  · intro i hi
    rw [memComp_iff cfg ids points (i + 1) hi, compB_succ cfg points i hi]
    simp
  · cases points with
    | nil => rfl
    | cons p rest =>
      simp only [detectCompactions, runPoints, runEvaluator, List.map_cons, runFull, evaluateTurn]
      exact detectFrom_eq_runCompactions cfg ids rest p (stepState cfg initialState p 0 0) _ _
        rfl (by simp [stepState])

theorem incremental_batch_compaction_agreement_witness :
    DiagnosticEventType.compaction_detected ∈ eventTypesAt (runPoints cfgD idsD ptsD) 2 :=
  (((incremental_batch_compaction_agreement cfgD idsD ptsD).2.1) 1 (by decide)).mpr
    (by with_unfolding_all decide)

theorem warningCrossed_succ (cfg : EvaluatorConfig) (points : List TimeSeriesPoint) (i : ℕ)
    (h : i < points.length) :
    (evalS cfg points (i + 1)).warningCrossed =
      ((!compB cfg points i && (evalS cfg points i).warningCrossed) ||
        decide ((ptAt points i).pct ≥ cfg.warningThreshold)) := by
  rw [evalS_succ cfg points i h]
  show (warningAfterReset (evalS cfg points i) (ptAt points i) ||
      (decide ((ptAt points i).pct ≥ cfg.warningThreshold) &&
        !warningAfterReset (evalS cfg points i) (ptAt points i))) = _
  rw [bool_or_and_not]
  rfl

theorem firedWarnB_eq (cfg : EvaluatorConfig) (points : List TimeSeriesPoint) (i : ℕ) :
    firedWarnB cfg points i =
      (decide ((ptAt points i).pct ≥ cfg.warningThreshold) &&
        !(!compB cfg points i && (evalS cfg points i).warningCrossed)) := rfl

theorem warningCrossed_iff (cfg : EvaluatorConfig) (points : List TimeSeriesPoint) :
    ∀ i, i ≤ points.length →
      ((evalS cfg points i).warningCrossed = true ↔
        ∃ j, j < i ∧ firedWarnB cfg points j = true ∧
          ∀ k, j < k → k < i → compB cfg points k = false) := by
  intro i
  induction i with
  | zero => intro _; simp [evalS, initialState]
  | succ i ih =>
    intro h
    have hi : i < points.length := by omega
    have ihh := ih (by omega)
    rw [warningCrossed_succ cfg points i hi]
    have hleft : ((!compB cfg points i && (evalS cfg points i).warningCrossed) = true) ↔
        (∃ j, j < i ∧ firedWarnB cfg points j = true ∧
          ∀ k, j < k → k ≤ i → compB cfg points k = false) := by
      constructor
      · intro hX
        obtain ⟨hnc, hF⟩ := Bool.and_eq_true_iff.mp hX
        have hcB : compB cfg points i = false := by simpa using hnc
        obtain ⟨j, hj, hfj, hnoc⟩ := ihh.mp hF
        refine ⟨j, hj, hfj, fun k hk1 hk2 => ?_⟩
        by_cases hki : k < i
        · exact hnoc k hk1 hki
        · have hke : k = i := by omega
          subst hke
          exact hcB
      · rintro ⟨j, hj, hfj, hnoc⟩
        refine Bool.and_eq_true_iff.mpr ⟨by simpa using hnoc i hj (le_refl i),
          ihh.mpr ⟨j, hj, hfj, fun k hk1 hk2 => hnoc k hk1 (by omega)⟩⟩
    constructor
    · intro hOr
      rcases Bool.or_eq_true_iff.mp hOr with hX | hW
      · obtain ⟨j, hj, hfj, hnoc⟩ := hleft.mp hX
        exact ⟨j, by omega, hfj, fun k hk1 hk2 => hnoc k hk1 (by omega)⟩
      · by_cases hf : firedWarnB cfg points i = true
        · exact ⟨i, by omega, hf, fun k hk1 hk2 => absurd hk1 (by omega)⟩
        · have hX : (!compB cfg points i && (evalS cfg points i).warningCrossed) = true := by
            rw [firedWarnB_eq, hW] at hf
            simp only [Bool.true_and] at hf
            simpa using hf
          obtain ⟨j, hj, hfj, hnoc⟩ := hleft.mp hX
          exact ⟨j, by omega, hfj, fun k hk1 hk2 => hnoc k hk1 (by omega)⟩
    · rintro ⟨j, hj, hfj, hnoc⟩
      rcases Nat.lt_succ_iff_lt_or_eq.mp hj with hj' | rfl
      · exact Bool.or_eq_true_iff.mpr (Or.inl (hleft.mpr
          ⟨j, hj', hfj, fun k hk1 hk2 => hnoc k hk1 (by omega)⟩))
      · refine Bool.or_eq_true_iff.mpr (Or.inr ?_)
        rw [firedWarnB_eq] at hfj
        exact (Bool.and_eq_true_iff.mp hfj).1

/-- Claim C1: warning-threshold hysteresis — for every point-only run, the
`i`-th call emits `warning_threshold_crossed` exactly when the point's
`pct` is at or above `warningThreshold` (exactly-at counts) and no
`warning_threshold_crossed` has been emitted since the last
`compaction_detected` (a compaction in the current turn included) or since
the start. -/
theorem warning_threshold_hysteresis (cfg : EvaluatorConfig) (ids : ℕ → String)
    (points : List TimeSeriesPoint) (i : ℕ) (h : i < points.length) :
    (DiagnosticEventType.warning_threshold_crossed ∈ eventTypesAt (runPoints cfg ids points) i ↔
      ((ptAt points i).pct ≥ cfg.warningThreshold ∧
        ¬ ∃ j, j < i ∧
          DiagnosticEventType.warning_threshold_crossed ∈
            eventTypesAt (runPoints cfg ids points) j ∧
          ∀ k, j < k → k ≤ i →
            DiagnosticEventType.compaction_detected ∉
              eventTypesAt (runPoints cfg ids points) k)) := by
  rw [memWarn_iff cfg ids points i h]
  have hx : (∃ j, j < i ∧
        DiagnosticEventType.warning_threshold_crossed ∈
          eventTypesAt (runPoints cfg ids points) j ∧
        ∀ k, j < k → k ≤ i →
          DiagnosticEventType.compaction_detected ∉
            eventTypesAt (runPoints cfg ids points) k) ↔
      (∃ j, j < i ∧ firedWarnB cfg points j = true ∧
        ∀ k, j < k → k ≤ i → compB cfg points k = false) := by
    constructor
    · rintro ⟨j, hj, hw, hnc⟩
      refine ⟨j, hj, (memWarn_iff cfg ids points j (by omega)).mp hw, fun k hk1 hk2 => ?_⟩
      have hkl : k < points.length := by omega
      have hmc := hnc k hk1 hk2
      rw [memComp_iff cfg ids points k hkl] at hmc
      simpa using hmc
    · rintro ⟨j, hj, hf, hnc⟩
      refine ⟨j, hj, (memWarn_iff cfg ids points j (by omega)).mpr hf, fun k hk1 hk2 => ?_⟩
      have hkl : k < points.length := by omega
      rw [memComp_iff cfg ids points k hkl]
      simp [hnc k hk1 hk2]
  rw [hx, firedWarnB_eq]
  have hflag := warningCrossed_iff cfg points i (le_of_lt h)
  constructor
  · intro hb
    obtain ⟨hW, hnX⟩ := Bool.and_eq_true_iff.mp hb
    refine ⟨by simpa using hW, ?_⟩
    rintro ⟨j, hj, hfj, hnc⟩
    have hcB : compB cfg points i = false := hnc i hj (le_refl i)
    have hF : (evalS cfg points i).warningCrossed = true :=
      hflag.mpr ⟨j, hj, hfj, fun k hk1 hk2 => hnc k hk1 (by omega)⟩
    rw [hcB, hF] at hnX
    simp at hnX
  · rintro ⟨hW, hnE⟩
    refine Bool.and_eq_true_iff.mpr ⟨by simpa using hW, ?_⟩
    by_contra hX
    have hX' : (!compB cfg points i && (evalS cfg points i).warningCrossed) = true := by
      simpa using hX
    obtain ⟨hnc, hF⟩ := Bool.and_eq_true_iff.mp hX'
    have hcB : compB cfg points i = false := by simpa using hnc
    obtain ⟨j, hj, hfj, hnoc⟩ := hflag.mp hF
    refine hnE ⟨j, hj, hfj, fun k hk1 hk2 => ?_⟩
    rcases Nat.lt_or_ge k i with hki | hki
    · exact hnoc k hk1 hki
    · have hke : k = i := by omega
      subst hke
      exact hcB

theorem warning_threshold_hysteresis_witness :
    DiagnosticEventType.warning_threshold_crossed ∈ eventTypesAt (runPoints cfgD idsD ptsD) 1 :=
  (warning_threshold_hysteresis cfgD idsD ptsD 1 (by decide)).mpr
    ⟨by with_unfolding_all decide, by
      rintro ⟨j, hj, hw, _⟩
      have hj0 : j = 0 := by omega
      subst hj0
      exact absurd hw (by with_unfolding_all decide)⟩

end CtxProfiler
